import Mathlib

/-!
Verification development for `src/1a_concave_hull.cpp` (nyc-park-study).

The program reads a GeoJSON feature collection, and for each whitelisted
MultiPolygon feature runs an escalating-threshold concave-hull search,
then a tiny-fragment cleanup pass, producing two output collections
(hull-only, and original-plus-hull-annotation) plus diagnostics.

Shallow embedding conventions:
* GEOS geometries are modelled by `Geometry`: a single polygon carries its
  area (as an exact rational) and an abstract shape tag so that distinct
  polygons with equal area stay distinguishable; a multi-polygon is the
  ordered list of its polygon parts; `other` covers any other geometry type.
* C++ `float`/`double` threshold arithmetic is embedded as exact `ℚ`
  arithmetic (the loop adds the increment once per iteration; no claim here
  hinges on float rounding).
* The external concave-hull kernel (`ConcaveHullOfPolygons::concaveHullByLength`)
  is an uninterpreted parameter `kernel : Geometry → ℚ → KernelResult`:
  for a fixed input geometry and threshold it either throws (`failure`,
  modelling the C++ exception caught at lines 199-205) or returns a hull.
* The GeoJSON serializer (`GeoJSONWriter::write`) is an uninterpreted
  parameter `ser : Geometry → String`.
* The `for (attempts = 0; attempts < MAX_ATTEMPTS; attempts++)` loop is
  written with a structurally decreasing `fuel` argument equal to
  `MAX_ATTEMPTS - attempts`; the loop body is translated branch by branch.
* A null-pointer dereference (`hull->clone()` on an empty `unique_ptr`)
  is modelled as `none` at the `processFeature` level: the program has no
  defined behaviour there and in practice crashes.
-/

/-- A single polygon: its area (`getArea()`) plus an abstract tag standing for
the actual ring coordinates, so distinct polygons of equal area differ. -/
structure Polygon where
  area : ℚ
  tag : ℕ
deriving DecidableEq

/-- Geometry, discriminated as in `getGeometryTypeId()`:
`GEOS_POLYGON`, `GEOS_MULTIPOLYGON` (ordered parts), or any other type. -/
inductive Geometry where
  | poly (p : Polygon)
  | multiPoly (parts : List Polygon)
  | other (tag : ℕ)
deriving DecidableEq

/-- Property values of the GeoJSON property table (we only need strings,
numbers and null). -/
inductive GeoJSONValue where
  | str (s : String)
  | num (q : ℚ)
  | null
deriving DecidableEq

/-- A GeoJSON feature: geometry, string-keyed property table, optional id. -/
structure Feature where
  geometry : Geometry
  properties : List (String × GeoJSONValue)
  fid : Option String
deriving DecidableEq

/-- Property lookup, as `properties.find(key)`. -/
def getProp (props : List (String × GeoJSONValue)) (key : String) :
    Option GeoJSONValue :=
  (props.find? (fun kv => kv.1 == key)).map (fun kv => kv.2)

/-- Property insertion-or-assignment, as `properties[key] = value`
(`std::map::operator[]`): overwrite an existing binding, else append. -/
def setProp (props : List (String × GeoJSONValue)) (key : String)
    (v : GeoJSONValue) : List (String × GeoJSONValue) :=
  match props with
  | [] => [(key, v)]
  | kv :: rest =>
    if kv.1 == key then (key, v) :: rest else kv :: setProp rest key v

/- Configuration constants, lines 60-70 of the source. -/

/-- `METERS_PER_DEGREE = 111319.9`. -/
def METERS_PER_DEGREE : ℚ := 1113199 / 10

/-- `CONCAVE_HULL_LENGTH_THRESHOLD = 50.0 / METERS_PER_DEGREE` (the starting
threshold `T0`, in degrees). -/
def CONCAVE_HULL_LENGTH_THRESHOLD : ℚ := 50 / METERS_PER_DEGREE

/-- `CONCAVE_HULL_LENGTH_INCREMENT = 20.0 / METERS_PER_DEGREE` (the
escalation step `ΔT`, in degrees). -/
def CONCAVE_HULL_LENGTH_INCREMENT : ℚ := 20 / METERS_PER_DEGREE

/-- `MAX_ATTEMPTS = 100`. -/
def MAX_ATTEMPTS : ℕ := 100

/-- `TINY_POLYGON_AREA_THRESHOLD = 500.0 / (METERS_PER_DEGREE^2)`
(tiny-fragment area threshold in squared degrees). -/
def TINY_POLYGON_AREA_THRESHOLD : ℚ :=
  500 / (METERS_PER_DEGREE * METERS_PER_DEGREE)

/-- Outcome of one kernel invocation: the C++ call either throws
(`failure`) or returns a hull geometry. -/
inductive KernelResult where
  | failure
  | success (g : Geometry)
deriving DecidableEq

/-- Acceptance test of the search loop, lines 207-221: accept a
`GEOS_MULTIPOLYGON` with exactly one part, or a plain `GEOS_POLYGON`;
anything else keeps searching. -/
def isAccepted : Geometry → Bool
  | Geometry.multiPoly parts => parts.length == 1
  | Geometry.poly _ => true
  | Geometry.other _ => false

/-- State of the threshold-search loop when it exits (lines 176-225):
the last successfully computed hull (if any kernel call succeeded),
the loop counter `attempts` at exit, `current_threshold` at exit,
whether the loop exited by `break` (acceptance), the threshold passed to
the kernel on the most recent invocation, and the number of kernel
invocations performed. The last two fields record observable history the
C++ code produces through its calls; they are not read by the loop. -/
structure SearchResult where
  hull : Option Geometry
  attempts : ℕ
  current_threshold : ℚ
  accepted : Bool
  lastInvoked : Option ℚ
  invocations : ℕ
deriving DecidableEq

/-- The threshold-search loop, lines 188-225.  `fuel` is
`MAX_ATTEMPTS - attempts`, so `fuel = 0` is the loop condition
`attempts < MAX_ATTEMPTS` failing.  Each iteration invokes the kernel at
`t`; on failure (the C++ catch block) the threshold is bumped by `inc` and
the loop continues; on success the result is accepted (break) when
`isAccepted`, else the threshold is bumped and the loop continues. -/
def searchFrom (kernel : ℚ → KernelResult) (inc : ℚ) :
    ℕ → ℕ → ℚ → Option Geometry → Option ℚ → ℕ → SearchResult
  | 0, a, t, hull, lastT, inv =>
    { hull := hull, attempts := a, current_threshold := t, accepted := false,
      lastInvoked := lastT, invocations := inv }
  | fuel + 1, a, t, hull, lastT, inv =>
    match kernel t with
    | KernelResult.failure =>
      searchFrom kernel inc fuel (a + 1) (t + inc) hull (some t) (inv + 1)
    | KernelResult.success g =>
      if isAccepted g then
        { hull := some g, attempts := a, current_threshold := t,
          accepted := true, lastInvoked := some t, invocations := inv + 1 }
      else
        searchFrom kernel inc fuel (a + 1) (t + inc) (some g) (some t) (inv + 1)

/-- The full search as run per feature: `attempts = 0`,
`current_threshold = CONCAVE_HULL_LENGTH_THRESHOLD`, null `hull`. -/
def runSearch (kernel : ℚ → KernelResult) : SearchResult :=
  searchFrom kernel CONCAVE_HULL_LENGTH_INCREMENT MAX_ATTEMPTS 0
    CONCAVE_HULL_LENGTH_THRESHOLD none none 0

/-- Whitelist test, lines 144-156: with an empty `EAPPLY_WHITELIST` every
feature is processed; otherwise a feature is processed exactly when its
`eapply` property exists, is a string, and is in the whitelist
(`should_process` stays `false` when the property is missing or
non-string). -/
def shouldProcess (wl : List String) (f : Feature) : Bool :=
  if wl.isEmpty then true
  else
    match getProp f.properties "eapply" with
    | some (GeoJSONValue.str s) => wl.contains s
    | _ => false

/-- Geometry-type test of line 173:
`geom->getGeometryTypeId() == GEOS_MULTIPOLYGON`. -/
def isMultiPolygon : Geometry → Bool
  | Geometry.multiPoly _ => true
  | _ => false

/-- First-pass handling of one feature, lines 139-281.  Returns the pair
(hull-only output feature, annotated output feature), or `none` for the
undefined-behaviour crash: when the feature is a processed MultiPolygon and
every kernel invocation threw, `hull` is still a null `unique_ptr` and line
244 (`hull->clone()`) dereferences it.
* Whitelist-excluded features are cloned unchanged into both outputs.
* Processed MultiPolygons run the threshold search; the hull-only output
  gets the hull with the original properties and id; the annotated output
  keeps the original geometry and gains property `concave_hull_polygon`
  holding the serialized hull (lines 243-258).
* Non-MultiPolygon features are cloned unchanged into both outputs. -/
def processFeature (wl : List String) (kernel : Geometry → ℚ → KernelResult)
    (ser : Geometry → String) (f : Feature) : Option (Feature × Feature) :=
  if ¬ shouldProcess wl f then
    some (⟨f.geometry, f.properties, f.fid⟩, ⟨f.geometry, f.properties, f.fid⟩)
  else if isMultiPolygon f.geometry then
    match (runSearch (kernel f.geometry)).hull with
    | none => none
    | some h =>
      some (⟨h, f.properties, f.fid⟩,
            ⟨f.geometry,
             setProp f.properties "concave_hull_polygon"
               (GeoJSONValue.str (ser h)), f.fid⟩)
  else
    some (⟨f.geometry, f.properties, f.fid⟩, ⟨f.geometry, f.properties, f.fid⟩)

/-- The first pass over the input collection: each feature appends exactly
one feature to each of `output_features` and `output_features_with_hulls`;
a feature-level crash (null hull dereference) aborts the run with no
outputs written. -/
def firstPass (wl : List String) (kernel : Geometry → ℚ → KernelResult)
    (ser : Geometry → String) : List Feature → Option (List Feature × List Feature)
  | [] => some ([], [])
  | f :: fs =>
    match processFeature wl kernel ser f with
    | none => none
    | some (h, a) =>
      match firstPass wl kernel ser fs with
      | none => none
      | some (hs, anns) => some (h :: hs, a :: anns)

/-- Diagnostic name of a feature, lines 303-314: the `eapply` property when
present and a string, else `"(no eapply value)"`. -/
def eapplyName (props : List (String × GeoJSONValue)) : String :=
  match getProp props "eapply" with
  | some (GeoJSONValue.str s) => s
  | _ => "(no eapply value)"

/-- The tiny-fragment test on a 2-part multi-polygon, lines 320-339:
if `area1 < area2 && area1 < TINY_POLYGON_AREA_THRESHOLD` keep part 2;
else if `area2 < area1 && area2 < TINY_POLYGON_AREA_THRESHOLD` keep part 1;
else not handled. Returns the part kept, or `none` when not handled. -/
def tinyCheck (p1 p2 : Polygon) (thr : ℚ) : Option Polygon :=
  if p1.area < p2.area ∧ p1.area < thr then some p2
  else if p2.area < p1.area ∧ p2.area < thr then some p1
  else none

/-- Result of second-pass handling of one hull-only output feature:
the (possibly replaced) feature in its collection slot, the unresolved
diagnostic record (name + cloned feature) when the feature stays
multi-part, and whether a tiny fragment was removed. -/
structure ClassifyResult where
  feature : Feature
  unresolved : Option (String × Feature)
  tinyRemoved : Bool
deriving DecidableEq

/-- Second-pass handling of one hull-only output feature, lines 294-366.
Only `GEOS_MULTIPOLYGON` geometries with more than one part are touched:
a 2-part multi-polygon passing `tinyCheck` is replaced in place by the
kept part (same properties, same id) and counted; every other multi-part
multi-polygon is recorded as unresolved (name + cloned feature) with its
geometry left intact. -/
def classify (f : Feature) : ClassifyResult :=
  match f.geometry with
  | Geometry.multiPoly [p1, p2] =>
    match tinyCheck p1 p2 TINY_POLYGON_AREA_THRESHOLD with
    | some kept =>
      { feature := ⟨Geometry.poly kept, f.properties, f.fid⟩,
        unresolved := none, tinyRemoved := true }
    | none =>
      { feature := f,
        unresolved := some (eapplyName f.properties,
                            ⟨f.geometry, f.properties, f.fid⟩),
        tinyRemoved := false }
  | Geometry.multiPoly parts =>
    if parts.length > 1 then
      { feature := f,
        unresolved := some (eapplyName f.properties,
                            ⟨f.geometry, f.properties, f.fid⟩),
        tinyRemoved := false }
    else { feature := f, unresolved := none, tinyRemoved := false }
  | _ => { feature := f, unresolved := none, tinyRemoved := false }

/-- Aggregate result of the second pass over `output_features`:
the updated collection, the ordered unresolved list
(`multi_polygon_names` paired with `multi_polygon_features`), and
`tiny_polygons_removed`. -/
structure SecondPassResult where
  features : List Feature
  unresolvedList : List (String × Feature)
  tinyRemoved : ℕ
deriving DecidableEq

/-- The second pass, lines 289-367: iterate over the hull-only output in
order, applying `classify` to each slot. -/
def secondPass : List Feature → SecondPassResult
  | [] => { features := [], unresolvedList := [], tinyRemoved := 0 }
  | f :: fs =>
    let c := classify f
    let r := secondPass fs
    { features := c.feature :: r.features,
      unresolvedList :=
        match c.unresolved with
        | some u => u :: r.unresolvedList
        | none => r.unresolvedList,
      tinyRemoved := (if c.tinyRemoved then 1 else 0) + r.tinyRemoved }

/-- Everything the program produces from the in-memory processing:
the two output collections and the diagnostics. -/
structure RunOutput where
  hullOnly : List Feature
  annotated : List Feature
  unresolvedList : List (String × Feature)
  tinyRemoved : ℕ
deriving DecidableEq

/-- The whole in-memory run of `main` (lines 139-423): first pass over all
features, then the tiny-fragment second pass over `output_features` only;
`output_features_with_hulls` is not revisited.  `none` models the crash of
an all-attempts-failed feature. -/
def run (wl : List String) (kernel : Geometry → ℚ → KernelResult)
    (ser : Geometry → String) (features : List Feature) : Option RunOutput :=
  match firstPass wl kernel ser features with
  | none => none
  | some (hs, anns) =>
    let sp := secondPass hs
    some { hullOnly := sp.features, annotated := anns,
           unresolvedList := sp.unresolvedList, tinyRemoved := sp.tinyRemoved }

/- Concrete instances used to exercise the definitions. -/

/-- A kernel invocation that always throws. -/
def kFail : ℚ → KernelResult := fun _ => KernelResult.failure

/-- A concave-hull kernel that throws at every threshold for every input. -/
def kAllFail : Geometry → ℚ → KernelResult := fun _ => kFail

/-- A concave-hull kernel that immediately returns a single polygon. -/
def kOne : Geometry → ℚ → KernelResult :=
  fun _ _ => KernelResult.success (Geometry.poly ⟨1, 7⟩)

/-- A trivial serializer standing in for `GeoJSONWriter::write`. -/
def serZero : Geometry → String := fun _ => "serialized"

/-- A two-part MultiPolygon feature named "Prospect Park". -/
def c1Feature : Feature :=
  ⟨Geometry.multiPoly [⟨1, 0⟩, ⟨1, 1⟩],
   [("eapply", GeoJSONValue.str "Prospect Park")], some "f1"⟩

/-- A two-part MultiPolygon feature whose part areas are both strictly
below `TINY_POLYGON_AREA_THRESHOLD` and unequal. -/
def c2Feature : Feature :=
  ⟨Geometry.multiPoly [⟨0, 1⟩, ⟨1 / 1000000000, 2⟩],
   [("eapply", GeoJSONValue.str "Sliver Park")], some "f2"⟩

/-- Whitelist containing only "Prospect Park". -/
def wl3 : List String := ["Prospect Park"]

/-- A feature excluded by `wl3` whose geometry is a two-part MultiPolygon
with one part of area 0 (below the tiny-fragment threshold). -/
def c3Feature : Feature :=
  ⟨Geometry.multiPoly [⟨0, 2⟩, ⟨1, 3⟩],
   [("eapply", GeoJSONValue.str "Other Park")], some "f3"⟩

/-- A feature whose geometry is not a MultiPolygon. -/
def c5Feature : Feature := ⟨Geometry.other 0, [], some "f5"⟩

/-- A three-part MultiPolygon feature. -/
def c9Feature : Feature :=
  ⟨Geometry.multiPoly [⟨1, 0⟩, ⟨1, 1⟩, ⟨1, 2⟩],
   [("eapply", GeoJSONValue.str "Tri Park")], some "f9"⟩

/-- A two-part hull whose first part has area 0: never accepted by the
search, prunable by the tiny-fragment resolver. -/
def g10 : Geometry := Geometry.multiPoly [⟨0, 8⟩, ⟨1, 9⟩]

/-- A kernel that always succeeds with the two-part hull `g10`. -/
def k10 : Geometry → ℚ → KernelResult := fun _ _ => KernelResult.success g10

/-- A whitelisted (empty whitelist) MultiPolygon feature processed with
kernel `k10`. -/
def f10 : Feature :=
  ⟨Geometry.multiPoly [⟨2, 20⟩, ⟨3, 21⟩],
   [("eapply", GeoJSONValue.str "Park X")], some "f10"⟩

/- Lemmas about the threshold search loop. -/

/-- Unfolding the loop on a failing kernel invocation: the exception is
absorbed, the threshold is bumped by `inc`, the attempt counter advances,
and the loop continues. -/
lemma searchFrom_failStep (kernel : ℚ → KernelResult) (inc : ℚ) (fuel a : ℕ)
    (t : ℚ) (hull : Option Geometry) (lastT : Option ℚ) (inv : ℕ)
    (hk : kernel t = KernelResult.failure) :
    searchFrom kernel inc (fuel + 1) a t hull lastT inv
      = searchFrom kernel inc fuel (a + 1) (t + inc) hull (some t) (inv + 1) := by
  simp only [searchFrom, hk]

/-- Unfolding the loop on a successful kernel invocation: the hull is
accepted (break) when single-part, else the threshold is bumped and the
loop continues with the new hull as best effort so far. -/
lemma searchFrom_successStep (kernel : ℚ → KernelResult) (inc : ℚ)
    (fuel a : ℕ) (t : ℚ) (hull : Option Geometry) (lastT : Option ℚ)
    (inv : ℕ) (g : Geometry) (hk : kernel t = KernelResult.success g) :
    searchFrom kernel inc (fuel + 1) a t hull lastT inv
      = if isAccepted g then
          { hull := some g, attempts := a, current_threshold := t,
            accepted := true, lastInvoked := some t, invocations := inv + 1 }
        else
          searchFrom kernel inc fuel (a + 1) (t + inc) (some g) (some t)
            (inv + 1) := by
  simp only [searchFrom, hk]

/-- If every kernel invocation throws, the `hull` accumulator stays null
and the loop exits unaccepted. -/
lemma searchFrom_allFail (kernel : ℚ → KernelResult) (inc : ℚ)
    (hk : ∀ t, kernel t = KernelResult.failure) :
    ∀ (fuel a : ℕ) (t : ℚ) (lastT : Option ℚ) (inv : ℕ),
      (searchFrom kernel inc fuel a t none lastT inv).hull = none ∧
      (searchFrom kernel inc fuel a t none lastT inv).accepted = false := by
  intro fuel
  induction fuel with
  | zero => intro a t lastT inv; simp [searchFrom]
  | succ n ih =>
    intro a t lastT inv
    rw [searchFrom_failStep kernel inc n a t none lastT inv (hk t)]
    exact ih (a + 1) (t + inc) (some t) (inv + 1)

/-- If the kernel constantly returns the same unacceptable geometry, the
loop exhausts its budget with that geometry as the best-effort hull. -/
lemma searchFrom_constSuccess (kernel : ℚ → KernelResult) (inc : ℚ)
    (g : Geometry) (hk : ∀ t, kernel t = KernelResult.success g)
    (hg : isAccepted g = false) :
    ∀ (fuel a : ℕ) (t : ℚ) (lastT : Option ℚ) (inv : ℕ)
      (hull : Option Geometry),
      (searchFrom kernel inc (fuel + 1) a t hull lastT inv).hull = some g ∧
      (searchFrom kernel inc (fuel + 1) a t hull lastT inv).accepted = false := by
  have aux : ∀ (fuel a : ℕ) (t : ℚ) (lastT : Option ℚ) (inv : ℕ),
      (searchFrom kernel inc fuel a t (some g) lastT inv).hull = some g ∧
      (searchFrom kernel inc fuel a t (some g) lastT inv).accepted = false := by
    intro fuel
    induction fuel with
    | zero => intro a t lastT inv; simp [searchFrom]
    | succ n ih =>
      intro a t lastT inv
      simp only [searchFrom, hk, hg, if_false, Bool.false_eq_true]
      exact ih (a + 1) (t + inc) (some t) (inv + 1)
  intro fuel a t lastT inv hull
  simp only [searchFrom, hk, hg, if_false, Bool.false_eq_true]
  exact aux fuel (a + 1) (t + inc) (some t) (inv + 1)

/-- Loop invariant of the threshold search, started at attempt index `a`
with `current_threshold = T0 + a * inc`, `inv = a` kernel invocations so
far, the most recent invocation (if any) at `T0 + (a - 1) * inc`.  On
exit: the invocation count equals `attempts + 1` on acceptance and
`a + fuel` (the budget) otherwise, and the last threshold handed to the
kernel is `T0 + (invocations - 1) * inc`. -/
lemma searchFrom_invariant (kernel : ℚ → KernelResult) (inc T0 : ℚ) :
    ∀ (fuel a : ℕ) (hull : Option Geometry) (r : SearchResult),
      searchFrom kernel inc fuel a (T0 + (a : ℚ) * inc) hull
        (if a = 0 then none else some (T0 + ((a : ℚ) - 1) * inc)) a = r →
      r.invocations = (if r.accepted then r.attempts + 1 else a + fuel) ∧
      r.invocations ≤ a + fuel ∧
      a ≤ r.invocations ∧
      r.lastInvoked = (if r.invocations = 0 then none
                       else some (T0 + ((r.invocations : ℚ) - 1) * inc)) ∧
      (r.accepted = false → r.attempts = a + fuel) := by
  intro fuel
  induction fuel with
  | zero =>
    intro a hull r hr
    rw [searchFrom] at hr
    subst hr
    refine ⟨by simp, by simp, by simp, by simp, by simp⟩
  | succ n ih =>
    intro a hull r hr
    have harg1 : T0 + (a : ℚ) * inc + inc = T0 + ((a + 1 : ℕ) : ℚ) * inc := by
      push_cast; ring
    have harg2 : some (T0 + (a : ℚ) * inc)
        = (if a + 1 = 0 then none
           else some (T0 + (((a + 1 : ℕ) : ℚ) - 1) * inc)) := by
      rw [if_neg (Nat.succ_ne_zero a)]
      congr 1
      push_cast; ring
    rcases hkt : kernel (T0 + (a : ℚ) * inc) with _ | g
    · -- kernel throws: the loop continues at attempt a + 1
      rw [searchFrom_failStep _ _ _ _ _ _ _ _ hkt, harg1, harg2] at hr
      obtain ⟨h1, h2, h3, h4, h5⟩ := ih (a + 1) hull r hr
      refine ⟨?_, by omega, by omega, h4, ?_⟩
      · rcases hacc : r.accepted with _ | _
        · rw [hacc] at h1; simp at h1 ⊢; omega
        · rw [hacc] at h1; simp at h1 ⊢; omega
      · intro hacc
        have := h5 hacc; omega
    · rw [searchFrom_successStep _ _ _ _ _ _ _ _ _ hkt] at hr
      rcases hga : isAccepted g with _ | _
      · -- unacceptable result: the loop continues at attempt a + 1
        rw [hga] at hr
        simp only [Bool.false_eq_true, if_false] at hr
        rw [harg1, harg2] at hr
        obtain ⟨h1, h2, h3, h4, h5⟩ := ih (a + 1) (some g) r hr
        refine ⟨?_, by omega, by omega, h4, ?_⟩
        · rcases hacc : r.accepted with _ | _
          · rw [hacc] at h1; simp at h1 ⊢; omega
          · rw [hacc] at h1; simp at h1 ⊢; omega
        · intro hacc
          have := h5 hacc; omega
      · -- accepted: the loop breaks at attempt a
        rw [hga] at hr
        simp only [if_true] at hr
        subst hr
        refine ⟨by simp, by show a + 1 ≤ a + (n + 1); omega,
          by show a ≤ a + 1; omega, ?_, by simp⟩
        show some (T0 + (a : ℚ) * inc)
            = if a + 1 = 0 then none
              else some (T0 + (((a + 1 : ℕ) : ℚ) - 1) * inc)
        rw [if_neg (Nat.succ_ne_zero a)]
        congr 2
        push_cast; ring

/- Numeric facts about the configured thresholds. -/

/-- The tiny-fragment area threshold is positive. -/
lemma tiny_pos : 0 < TINY_POLYGON_AREA_THRESHOLD := by
  rw [TINY_POLYGON_AREA_THRESHOLD, METERS_PER_DEGREE]
  norm_num

/-- The tiny-fragment area threshold is below 1 square degree. -/
lemma tiny_lt_one : TINY_POLYGON_AREA_THRESHOLD < 1 := by
  rw [TINY_POLYGON_AREA_THRESHOLD, METERS_PER_DEGREE]
  norm_num

/-- One billionth of a square degree is below the tiny-fragment area
threshold. -/
lemma one_billionth_lt_tiny : (1 / 1000000000 : ℚ) < TINY_POLYGON_AREA_THRESHOLD := by
  rw [TINY_POLYGON_AREA_THRESHOLD, METERS_PER_DEGREE]
  norm_num

/- Lemmas about the tiny-fragment test. -/

/-- When the first part is strictly smaller than both the second part and
the threshold, the second part is kept. -/
lemma tinyCheck_keep2 (p1 p2 : Polygon) (thr : ℚ) (h1 : p1.area < p2.area)
    (h2 : p1.area < thr) : tinyCheck p1 p2 thr = some p2 := by
  rw [tinyCheck, if_pos ⟨h1, h2⟩]

/-- When the second part is strictly smaller than both the first part and
the threshold, the first part is kept. -/
lemma tinyCheck_keep1 (p1 p2 : Polygon) (thr : ℚ) (h1 : p2.area < p1.area)
    (h2 : p2.area < thr) : tinyCheck p1 p2 thr = some p1 := by
  rw [tinyCheck, if_neg (fun hc => absurd hc.1 (not_lt.mpr (le_of_lt h1))),
    if_pos ⟨h1, h2⟩]

/-- When neither branch condition holds, the pair is left alone. -/
lemma tinyCheck_none (p1 p2 : Polygon) (thr : ℚ)
    (h1 : ¬(p1.area < p2.area ∧ p1.area < thr))
    (h2 : ¬(p2.area < p1.area ∧ p2.area < thr)) :
    tinyCheck p1 p2 thr = none := by
  rw [tinyCheck, if_neg h1, if_neg h2]

/- Lemmas about the second-pass classifier. -/

/-- `classify` on a 2-part multi-polygon feature, written through
`tinyCheck`. -/
lemma classify_two (p1 p2 : Polygon) (props : List (String × GeoJSONValue))
    (fid : Option String) :
    classify ⟨Geometry.multiPoly [p1, p2], props, fid⟩
      = match tinyCheck p1 p2 TINY_POLYGON_AREA_THRESHOLD with
        | some kept =>
          { feature := ⟨Geometry.poly kept, props, fid⟩,
            unresolved := none, tinyRemoved := true }
        | none =>
          { feature := ⟨Geometry.multiPoly [p1, p2], props, fid⟩,
            unresolved := some (eapplyName props,
                                ⟨Geometry.multiPoly [p1, p2], props, fid⟩),
            tinyRemoved := false } := by
  rw [classify]

/-- `classify` never changes the identifier of a feature. -/
lemma classify_fid (f : Feature) : (classify f).feature.fid = f.fid := by
  rw [classify]
  rcases f with ⟨g, props, fid⟩
  rcases g with p | parts | tag
  · rfl
  · rcases parts with _ | ⟨p1, _ | ⟨p2, _ | ⟨p3, rest⟩⟩⟩
    · rfl
    · rfl
    · rcases h : tinyCheck p1 p2 TINY_POLYGON_AREA_THRESHOLD with _ | kept <;>
        simp [h]
    · rfl
  · rfl

/-- The second pass never changes length or identifiers of the hull-only
collection. -/
lemma secondPass_fid : ∀ l : List Feature,
    (secondPass l).features.map Feature.fid = l.map Feature.fid := by
  intro l
  induction l with
  | nil => rfl
  | cons f fs ih =>
    simp only [secondPass, List.map, List.cons.injEq]
    exact ⟨classify_fid f, ih⟩

/- Lemmas about the first pass. -/

/-- Every branch of the first-pass dispatch preserves the feature id. -/
lemma processFeature_fid (wl : List String)
    (kernel : Geometry → ℚ → KernelResult) (ser : Geometry → String)
    (f h a : Feature) (hp : processFeature wl kernel ser f = some (h, a)) :
    h.fid = f.fid ∧ a.fid = f.fid := by
  rw [processFeature] at hp
  split at hp
  · simp only [Option.some.injEq, Prod.mk.injEq] at hp
    obtain ⟨h1, h2⟩ := hp
    subst h1; subst h2
    exact ⟨rfl, rfl⟩
  · split at hp
    · split at hp
      · exact Option.noConfusion hp
      · simp only [Option.some.injEq, Prod.mk.injEq] at hp
        obtain ⟨h1, h2⟩ := hp
        subst h1; subst h2
        exact ⟨rfl, rfl⟩
    · simp only [Option.some.injEq, Prod.mk.injEq] at hp
      obtain ⟨h1, h2⟩ := hp
      subst h1; subst h2
      exact ⟨rfl, rfl⟩

/-- The first pass preserves order and identifiers of the input sequence in
both output collections. -/
lemma firstPass_fid (wl : List String)
    (kernel : Geometry → ℚ → KernelResult) (ser : Geometry → String) :
    ∀ (fs hs anns : List Feature),
      firstPass wl kernel ser fs = some (hs, anns) →
      hs.map Feature.fid = fs.map Feature.fid ∧
      anns.map Feature.fid = fs.map Feature.fid := by
  intro fs
  induction fs with
  | nil =>
    intro hs anns hfp
    rw [firstPass] at hfp
    simp only [Option.some.injEq, Prod.mk.injEq] at hfp
    obtain ⟨h1, h2⟩ := hfp
    subst h1; subst h2
    exact ⟨rfl, rfl⟩
  | cons f fs ih =>
    intro hs anns hfp
    rcases hpf : processFeature wl kernel ser f with _ | ⟨h, a⟩
    · rw [firstPass, hpf] at hfp
      exact Option.noConfusion hfp
    · rcases hrest : firstPass wl kernel ser fs with _ | ⟨hs0, anns0⟩
      · rw [firstPass, hpf, hrest] at hfp
        exact Option.noConfusion hfp
      · rw [firstPass, hpf, hrest] at hfp
        simp only [Option.some.injEq, Prod.mk.injEq] at hfp
        obtain ⟨h1, h2⟩ := hfp
        subst h1; subst h2
        obtain ⟨hh, ha⟩ := processFeature_fid wl kernel ser f h a hpf
        obtain ⟨ih1, ih2⟩ := ih hs0 anns0 hrest
        simp only [List.map, List.cons.injEq]
        exact ⟨⟨hh, ih1⟩, ⟨ha, ih2⟩⟩

/-- The whole run, written through the two passes: the second pass
transforms only the hull-only collection; the annotated collection is the
first pass, untouched. -/
lemma run_eq (wl : List String) (kernel : Geometry → ℚ → KernelResult)
    (ser : Geometry → String) (fs hs anns : List Feature)
    (hfp : firstPass wl kernel ser fs = some (hs, anns)) :
    run wl kernel ser fs
      = some { hullOnly := (secondPass hs).features, annotated := anns,
               unresolvedList := (secondPass hs).unresolvedList,
               tinyRemoved := (secondPass hs).tinyRemoved } := by
  rw [run, hfp]

/-- One step of the second pass, unfolded. -/
lemma secondPass_cons (f : Feature) (fs : List Feature) :
    secondPass (f :: fs)
      = { features := (classify f).feature :: (secondPass fs).features,
          unresolvedList :=
            match (classify f).unresolved with
            | some u => u :: (secondPass fs).unresolvedList
            | none => (secondPass fs).unresolvedList,
          tinyRemoved :=
            (if (classify f).tinyRemoved then 1 else 0)
              + (secondPass fs).tinyRemoved } := rfl

/-- The first pass, processed-MultiPolygon branch with at least one kernel
success: the hull-only output gets the hull with the original properties
and id, the annotated output keeps the original geometry and gains the
serialized hull under key `concave_hull_polygon` (lines 243-258). -/
lemma processFeature_hull (wl : List String)
    (kernel : Geometry → ℚ → KernelResult) (ser : Geometry → String)
    (f : Feature) (h : Geometry) (hwl : shouldProcess wl f = true)
    (hmp : isMultiPolygon f.geometry = true)
    (hh : (runSearch (kernel f.geometry)).hull = some h) :
    processFeature wl kernel ser f
      = some (⟨h, f.properties, f.fid⟩,
              ⟨f.geometry,
               setProp f.properties "concave_hull_polygon"
                 (GeoJSONValue.str (ser h)), f.fid⟩) := by
  rw [processFeature, if_neg (by simp [hwl]), if_pos hmp, hh]

/-- Claim C4: for every input multi-polygon and every kernel behaviour,
the Threshold Search Engine performs between 1 and `MAX_ATTEMPTS` kernel
invocations; the threshold passed to the kernel on the final invocation is
exactly `CONCAVE_HULL_LENGTH_THRESHOLD + (invocations - 1) *
CONCAVE_HULL_LENGTH_INCREMENT`; and on acceptance the recorded
attempts-used count (`attempts + 1`, line 239) equals the invocation
count. -/
theorem c4_monotone_escalation (kernel : ℚ → KernelResult) :
    1 ≤ (runSearch kernel).invocations ∧
    (runSearch kernel).invocations ≤ MAX_ATTEMPTS ∧
    (runSearch kernel).lastInvoked
      = some (CONCAVE_HULL_LENGTH_THRESHOLD
          + (((runSearch kernel).invocations : ℚ) - 1)
            * CONCAVE_HULL_LENGTH_INCREMENT) ∧
    ((runSearch kernel).accepted = true →
      (runSearch kernel).invocations = (runSearch kernel).attempts + 1) := by
  obtain ⟨k1, k2, k3, k4, k5⟩ :=
    searchFrom_invariant kernel CONCAVE_HULL_LENGTH_INCREMENT
      CONCAVE_HULL_LENGTH_THRESHOLD MAX_ATTEMPTS 0 none (runSearch kernel)
      (by
        rw [show CONCAVE_HULL_LENGTH_THRESHOLD
              + ((0 : ℕ) : ℚ) * CONCAVE_HULL_LENGTH_INCREMENT
            = CONCAVE_HULL_LENGTH_THRESHOLD from by push_cast; ring,
          if_pos rfl]
        rfl)
  have hinv : 1 ≤ (runSearch kernel).invocations := by
    rcases hacc : (runSearch kernel).accepted with _ | _
    · rw [hacc] at k1; simp [MAX_ATTEMPTS] at k1; omega
    · rw [hacc] at k1; simp [MAX_ATTEMPTS] at k1; omega
  refine ⟨hinv, by simpa using k2, ?_, ?_⟩
  · rw [k4, if_neg (by omega)]
  · intro hacc
    rw [hacc] at k1; simp at k1; exact k1

/-- Claim C4 witness at the always-failing kernel. -/
theorem c4_witness :
    1 ≤ (runSearch kFail).invocations ∧
    (runSearch kFail).invocations ≤ MAX_ATTEMPTS :=
  ⟨(c4_monotone_escalation kFail).1, (c4_monotone_escalation kFail).2.1⟩

/-- Claim C7: a failing kernel invocation is caught inside the loop body
(lines 199-205): the engine bumps the threshold by the increment, advances
the attempt counter, and retries — the loop continues instead of
propagating the failure. -/
theorem c7_kernel_failure_retry (kernel : ℚ → KernelResult) (inc : ℚ)
    (fuel a : ℕ) (t : ℚ) (hull : Option Geometry) (lastT : Option ℚ)
    (inv : ℕ) (hk : kernel t = KernelResult.failure) :
    searchFrom kernel inc (fuel + 1) a t hull lastT inv
      = searchFrom kernel inc fuel (a + 1) (t + inc) hull (some t) (inv + 1) :=
  searchFrom_failStep kernel inc fuel a t hull lastT inv hk

/-- Claim C7 witness: the first failing invocation of a run. -/
theorem c7_witness :
    searchFrom kFail CONCAVE_HULL_LENGTH_INCREMENT 100 0
      CONCAVE_HULL_LENGTH_THRESHOLD none none 0
      = searchFrom kFail CONCAVE_HULL_LENGTH_INCREMENT 99 1
        (CONCAVE_HULL_LENGTH_THRESHOLD + CONCAVE_HULL_LENGTH_INCREMENT) none
        (some CONCAVE_HULL_LENGTH_THRESHOLD) 1 :=
  c7_kernel_failure_retry kFail CONCAVE_HULL_LENGTH_INCREMENT 99 0
    CONCAVE_HULL_LENGTH_THRESHOLD none none 0 rfl

/-- Claim C1 (code bug): when every kernel invocation throws for a
whitelisted MultiPolygon feature, the loop exits with `hull` still a null
`unique_ptr` and line 244 (`hull->clone()`) dereferences it — undefined
behaviour (`none` here), a crash in practice — instead of the soft
StillMultiPart outcome with attempts-used `= MAX_ATTEMPTS` that the claim
describes. -/
theorem c1_all_failures_crash (wl : List String)
    (kernel : Geometry → ℚ → KernelResult) (ser : Geometry → String)
    (f : Feature) (hwl : shouldProcess wl f = true)
    (hmp : isMultiPolygon f.geometry = true)
    (hk : ∀ t, kernel f.geometry t = KernelResult.failure) :
    processFeature wl kernel ser f = none := by
  have hnull : (runSearch (kernel f.geometry)).hull = none :=
    (searchFrom_allFail (kernel f.geometry) CONCAVE_HULL_LENGTH_INCREMENT hk
      MAX_ATTEMPTS 0 CONCAVE_HULL_LENGTH_THRESHOLD none 0).1
  rw [processFeature, if_neg (by simp [hwl]), if_pos hmp, hnull]

/-- Claim C1 witness: a concrete two-part feature with an all-failing
kernel has no defined first-pass result. -/
theorem c1_witness : processFeature [] kAllFail serZero c1Feature = none :=
  c1_all_failures_crash [] kAllFail serZero c1Feature (by decide) (by decide)
    (fun _ => rfl)

/-- Claim C2 counterexample: both part areas of `c2Feature` (0 and 10⁻⁹)
are strictly below `TINY_POLYGON_AREA_THRESHOLD`, yet the resolver prunes
the smaller part and marks the feature resolved instead of leaving it
unresolved with both parts: lines 328-333 only require the smaller area to
be below the other area and the threshold. -/
theorem c2_counterexample :
    (0 : ℚ) < TINY_POLYGON_AREA_THRESHOLD ∧
    (1 / 1000000000 : ℚ) < TINY_POLYGON_AREA_THRESHOLD ∧
    classify c2Feature
      = { feature := ⟨Geometry.poly ⟨1 / 1000000000, 2⟩,
                      c2Feature.properties, c2Feature.fid⟩,
          unresolved := none, tinyRemoved := true } := by
  refine ⟨tiny_pos, one_billionth_lt_tiny, ?_⟩
  have hk : tinyCheck ⟨0, 1⟩ ⟨1 / 1000000000, 2⟩ TINY_POLYGON_AREA_THRESHOLD
      = some ⟨1 / 1000000000, 2⟩ :=
    tinyCheck_keep2 _ _ _ (by norm_num) tiny_pos
  show classify ⟨Geometry.multiPoly [⟨0, 1⟩, ⟨1 / 1000000000, 2⟩],
    c2Feature.properties, c2Feature.fid⟩ = _
  rw [classify_two, hk]

/-- Claim C2 (amended): the resolver leaves a 2-part feature unresolved
(geometry kept, recorded in the unresolved list) when both part areas are
at or above the threshold, or both strictly below it **with equal areas**;
when both are below the threshold but unequal, the strictly smaller part
is discarded instead. -/
theorem c2_amended_resolver (p1 p2 : Polygon)
    (props : List (String × GeoJSONValue)) (fid : Option String) :
    ((TINY_POLYGON_AREA_THRESHOLD ≤ p1.area ∧
      TINY_POLYGON_AREA_THRESHOLD ≤ p2.area) ∨
     (p1.area < TINY_POLYGON_AREA_THRESHOLD ∧
      p2.area < TINY_POLYGON_AREA_THRESHOLD ∧ p1.area = p2.area) →
      classify ⟨Geometry.multiPoly [p1, p2], props, fid⟩
        = { feature := ⟨Geometry.multiPoly [p1, p2], props, fid⟩,
            unresolved := some (eapplyName props,
                                ⟨Geometry.multiPoly [p1, p2], props, fid⟩),
            tinyRemoved := false }) ∧
    (p1.area < p2.area ∧ p1.area < TINY_POLYGON_AREA_THRESHOLD →
      classify ⟨Geometry.multiPoly [p1, p2], props, fid⟩
        = { feature := ⟨Geometry.poly p2, props, fid⟩,
            unresolved := none, tinyRemoved := true }) := by
  constructor
  · intro h
    have hn : tinyCheck p1 p2 TINY_POLYGON_AREA_THRESHOLD = none := by
      rcases h with ⟨ha, hb⟩ | ⟨ha, hb, hab⟩
      · exact tinyCheck_none p1 p2 _ (fun hc => absurd hc.2 (not_lt.mpr ha))
          (fun hc => absurd hc.2 (not_lt.mpr hb))
      · exact tinyCheck_none p1 p2 _ (fun hc => absurd hc.1 (by rw [hab]; exact lt_irrefl _))
          (fun hc => absurd hc.1 (by rw [hab]; exact lt_irrefl _))
    rw [classify_two, hn]
  · intro ⟨h1, h2⟩
    rw [classify_two, tinyCheck_keep2 p1 p2 _ h1 h2]

/-- Claim C2 witness (amended): areas 1 and 1 are both at or above the
threshold, so the feature stays unresolved. -/
theorem c2_witness :
    classify c1Feature
      = { feature := c1Feature,
          unresolved := some ("Prospect Park", c1Feature),
          tinyRemoved := false } :=
  (c2_amended_resolver ⟨1, 0⟩ ⟨1, 1⟩
      [("eapply", GeoJSONValue.str "Prospect Park")] (some "f1")).1
    (Or.inl ⟨le_of_lt tiny_lt_one, le_of_lt tiny_lt_one⟩)

/-- Claim C6: for a 2-part multi-polygon with one area strictly below the
threshold and the other at or above it, the resolver keeps exactly the
large part (in either slot order), records nothing as unresolved, and the
second pass increments the tiny-fragment counter. -/
theorem c6_tiny_fragment_pruned (p1 p2 : Polygon)
    (props : List (String × GeoJSONValue)) (fid : Option String)
    (h1 : p1.area < TINY_POLYGON_AREA_THRESHOLD)
    (h2 : TINY_POLYGON_AREA_THRESHOLD ≤ p2.area) :
    classify ⟨Geometry.multiPoly [p1, p2], props, fid⟩
      = { feature := ⟨Geometry.poly p2, props, fid⟩,
          unresolved := none, tinyRemoved := true } ∧
    classify ⟨Geometry.multiPoly [p2, p1], props, fid⟩
      = { feature := ⟨Geometry.poly p2, props, fid⟩,
          unresolved := none, tinyRemoved := true } ∧
    ∀ rest : List Feature,
      (secondPass (⟨Geometry.multiPoly [p1, p2], props, fid⟩ :: rest)).tinyRemoved
        = 1 + (secondPass rest).tinyRemoved := by
  have hlt : p1.area < p2.area := lt_of_lt_of_le h1 h2
  have hk1 : tinyCheck p1 p2 TINY_POLYGON_AREA_THRESHOLD = some p2 :=
    tinyCheck_keep2 _ _ _ hlt h1
  have hk2 : tinyCheck p2 p1 TINY_POLYGON_AREA_THRESHOLD = some p2 :=
    tinyCheck_keep1 _ _ _ hlt h1
  have hc : classify ⟨Geometry.multiPoly [p1, p2], props, fid⟩
      = { feature := ⟨Geometry.poly p2, props, fid⟩,
          unresolved := none, tinyRemoved := true } := by
    rw [classify_two, hk1]
  refine ⟨hc, by rw [classify_two, hk2], ?_⟩
  intro rest
  rw [secondPass_cons, hc]
  simp

/-- Claim C6 witness: areas 0 and 1 around the threshold. -/
theorem c6_witness :
    classify ⟨Geometry.multiPoly [⟨0, 4⟩, ⟨1, 5⟩], [], some "f6"⟩
      = { feature := ⟨Geometry.poly ⟨1, 5⟩, [], some "f6"⟩,
          unresolved := none, tinyRemoved := true } :=
  (c6_tiny_fragment_pruned ⟨0, 4⟩ ⟨1, 5⟩ [] (some "f6") tiny_pos
    (le_of_lt tiny_lt_one)).1

/-- `classify` on a multi-polygon with three or more parts: no pruning is
attempted; the feature is recorded as unresolved with its geometry
intact. -/
lemma classify_many (p1 p2 p3 : Polygon) (rest : List Polygon)
    (props : List (String × GeoJSONValue)) (fid : Option String) :
    classify ⟨Geometry.multiPoly (p1 :: p2 :: p3 :: rest), props, fid⟩
      = { feature := ⟨Geometry.multiPoly (p1 :: p2 :: p3 :: rest), props, fid⟩,
          unresolved := some (eapplyName props,
            ⟨Geometry.multiPoly (p1 :: p2 :: p3 :: rest), props, fid⟩),
          tinyRemoved := false } := rfl

/-- Claim C9: a feature whose final geometry has more than 2 polygon parts
is never pruned: it is recorded in the unresolved list with all parts
kept. -/
theorem c9_many_parts_unresolved (f : Feature) (parts : List Polygon)
    (hg : f.geometry = Geometry.multiPoly parts) (hlen : 2 < parts.length) :
    classify f
      = { feature := f,
          unresolved := some (eapplyName f.properties,
                              ⟨f.geometry, f.properties, f.fid⟩),
          tinyRemoved := false } := by
  have hc : classify f
      = classify ⟨Geometry.multiPoly parts, f.properties, f.fid⟩ := by
    rw [← hg]
  rcases parts with _ | ⟨p1, _ | ⟨p2, _ | ⟨p3, rest⟩⟩⟩
  · simp at hlen
  · simp at hlen
  · simp at hlen
  · rw [hc, classify_many, ← hg]

/-- Claim C9 witness: a three-part feature. -/
theorem c9_witness :
    classify c9Feature
      = { feature := c9Feature,
          unresolved := some ("Tri Park", c9Feature),
          tinyRemoved := false } :=
  c9_many_parts_unresolved c9Feature [⟨1, 0⟩, ⟨1, 1⟩, ⟨1, 2⟩] rfl (by decide)

/-- The second pass leaves the slot of a feature untouched unless its geometry
is a 2-part multi-polygon passing the tiny-fragment test. -/
lemma classify_feature_unchanged (f : Feature)
    (h : ∀ p1 p2 : Polygon, f.geometry = Geometry.multiPoly [p1, p2] →
        tinyCheck p1 p2 TINY_POLYGON_AREA_THRESHOLD = none) :
    (classify f).feature = f := by
  rcases f with ⟨g, props, fid⟩
  rcases g with p | parts | tag
  · rfl
  · rcases parts with _ | ⟨p1, _ | ⟨p2, _ | ⟨p3, rest⟩⟩⟩
    · rfl
    · rfl
    · have hn := h p1 p2 rfl
      rw [classify_two, hn]
    · rw [classify_many]
  · rfl

/-- Claim C3 counterexample: with whitelist `wl3`, the feature `c3Feature`
is excluded, yet the hull-only output does not keep its geometry
byte-for-byte: the second pass (lines 294-353) also visits pass-through
features, and prunes the area-0 part of its 2-part multi-polygon. -/
theorem c3_counterexample :
    shouldProcess wl3 c3Feature = false ∧
    run wl3 kAllFail serZero [c3Feature]
      = some { hullOnly := [⟨Geometry.poly ⟨1, 3⟩,
                            c3Feature.properties, c3Feature.fid⟩],
               annotated := [c3Feature],
               unresolvedList := [], tinyRemoved := 1 } ∧
    Geometry.poly ⟨1, 3⟩ ≠ c3Feature.geometry := by
  have hpf : processFeature wl3 kAllFail serZero c3Feature
      = some (c3Feature, c3Feature) := by
    rw [processFeature,
      if_pos (by decide : ¬ shouldProcess wl3 c3Feature = true)]
  have hfp : firstPass wl3 kAllFail serZero [c3Feature]
      = some ([c3Feature], [c3Feature]) := by
    simp only [firstPass, hpf]
  have hcl : classify c3Feature
      = { feature := ⟨Geometry.poly ⟨1, 3⟩,
                      c3Feature.properties, c3Feature.fid⟩,
          unresolved := none, tinyRemoved := true } := by
    show classify ⟨Geometry.multiPoly [⟨0, 2⟩, ⟨1, 3⟩],
      c3Feature.properties, c3Feature.fid⟩ = _
    rw [classify_two, tinyCheck_keep2 _ _ _ (by norm_num) tiny_pos]
  have hsp : secondPass [c3Feature]
      = { features := [⟨Geometry.poly ⟨1, 3⟩,
                       c3Feature.properties, c3Feature.fid⟩],
          unresolvedList := [], tinyRemoved := 1 } := by
    rw [secondPass_cons, hcl]
    rfl
  refine ⟨by decide, ?_, by decide⟩
  rw [run_eq wl3 kAllFail serZero [c3Feature] [c3Feature] [c3Feature] hfp,
    hsp]

/-- Claim C3 (amended): a whitelist-excluded or non-MultiPolygon feature
passes through the first pass unchanged into both outputs; its hull-only
slot also survives the second pass byte-for-byte unless its geometry is a
2-part multi-polygon passing the tiny-fragment test, in which case the
smaller part is pruned there (the annotated slot is never revisited). -/
theorem c3_amended_passthrough (wl : List String)
    (kernel : Geometry → ℚ → KernelResult) (ser : Geometry → String)
    (f : Feature)
    (hskip : shouldProcess wl f = false ∨ isMultiPolygon f.geometry = false) :
    processFeature wl kernel ser f = some (f, f) ∧
    ((∀ p1 p2 : Polygon, f.geometry = Geometry.multiPoly [p1, p2] →
        tinyCheck p1 p2 TINY_POLYGON_AREA_THRESHOLD = none) →
      (classify f).feature = f) := by
  refine ⟨?_, fun hnone => classify_feature_unchanged f hnone⟩
  by_cases hw : shouldProcess wl f = true
  · rcases hskip with h | h
    · rw [hw] at h; exact Bool.noConfusion h
    · rw [processFeature, if_neg (by simp [hw]), if_neg (by simp [h])]
  · rw [processFeature, if_pos hw]

/-- Claim C3 witness (amended): a feature excluded by `wl3` with a
non-prunable geometry passes through both passes unchanged. -/
theorem c3_witness :
    processFeature wl3 kAllFail serZero c5Feature = some (c5Feature, c5Feature) ∧
    (classify c5Feature).feature = c5Feature := by
  have h := c3_amended_passthrough wl3 kAllFail serZero c5Feature
    (Or.inl (by decide))
  exact ⟨h.1, h.2 (fun p1 p2 hh => Geometry.noConfusion hh)⟩

/-- Claim C5: whenever the run completes, the hull-only and annotated
collections have the same length and the same feature identifiers in the
same order, as each other and as the input sequence. -/
theorem c5_output_correspondence (wl : List String)
    (kernel : Geometry → ℚ → KernelResult) (ser : Geometry → String)
    (fs : List Feature) (out : RunOutput)
    (h : run wl kernel ser fs = some out) :
    out.hullOnly.map Feature.fid = fs.map Feature.fid ∧
    out.annotated.map Feature.fid = fs.map Feature.fid ∧
    out.hullOnly.map Feature.fid = out.annotated.map Feature.fid ∧
    out.hullOnly.length = fs.length ∧
    out.annotated.length = fs.length := by
  rcases hfp : firstPass wl kernel ser fs with _ | ⟨hs, anns⟩
  · rw [run, hfp] at h
    exact Option.noConfusion h
  · rw [run_eq wl kernel ser fs hs anns hfp] at h
    simp only [Option.some.injEq] at h
    subst h
    obtain ⟨h1, h2⟩ := firstPass_fid wl kernel ser fs hs anns hfp
    have h3 : (secondPass hs).features.map Feature.fid = hs.map Feature.fid :=
      secondPass_fid hs
    refine ⟨h3.trans h1, h2, (h3.trans h1).trans h2.symm, ?_, ?_⟩
    · have hl := congrArg List.length (h3.trans h1)
      simpa using hl
    · have hl := congrArg List.length h2
      simpa using hl

/-- Claim C5 witness at a concrete one-feature run. -/
theorem c5_witness :
    (RunOutput.mk [c5Feature] [c5Feature] [] 0).hullOnly.map Feature.fid
        = [c5Feature].map Feature.fid ∧
    (RunOutput.mk [c5Feature] [c5Feature] [] 0).annotated.map Feature.fid
        = [c5Feature].map Feature.fid ∧
    (RunOutput.mk [c5Feature] [c5Feature] [] 0).hullOnly.map Feature.fid
        = (RunOutput.mk [c5Feature] [c5Feature] [] 0).annotated.map Feature.fid ∧
    (RunOutput.mk [c5Feature] [c5Feature] [] 0).hullOnly.length
        = [c5Feature].length ∧
    (RunOutput.mk [c5Feature] [c5Feature] [] 0).annotated.length
        = [c5Feature].length :=
  c5_output_correspondence [] kOne serZero [c5Feature]
    (RunOutput.mk [c5Feature] [c5Feature] [] 0) (by decide)

/-- Claim C8: for a whitelisted MultiPolygon feature whose search produced
a hull, the hull-only output carries the hull with the original properties
and id, and the annotated output keeps the original geometry with the
property table augmented by the string property `concave_hull_polygon`
holding the serialized hull. -/
theorem c8_two_output_variants (wl : List String)
    (kernel : Geometry → ℚ → KernelResult) (ser : Geometry → String)
    (f : Feature) (h : Geometry) (hwl : shouldProcess wl f = true)
    (hmp : isMultiPolygon f.geometry = true)
    (hh : (runSearch (kernel f.geometry)).hull = some h) :
    processFeature wl kernel ser f
      = some (⟨h, f.properties, f.fid⟩,
              ⟨f.geometry,
               setProp f.properties "concave_hull_polygon"
                 (GeoJSONValue.str (ser h)), f.fid⟩) :=
  processFeature_hull wl kernel ser f h hwl hmp hh

/-- Claim C8 witness: an immediately-accepting kernel. -/
theorem c8_witness :
    processFeature [] kOne serZero c1Feature
      = some (⟨Geometry.poly ⟨1, 7⟩, c1Feature.properties, c1Feature.fid⟩,
              ⟨c1Feature.geometry,
               setProp c1Feature.properties "concave_hull_polygon"
                 (GeoJSONValue.str (serZero (Geometry.poly ⟨1, 7⟩))),
               c1Feature.fid⟩) :=
  c8_two_output_variants [] kOne serZero c1Feature (Geometry.poly ⟨1, 7⟩)
    (by decide) (by decide) (by rfl)

/-- Claim C10: the second pass rewrites only the hull-only collection —
the annotated collection of any completed run is exactly that of the first pass.
Concretely, for a feature whose search exhausts the budget on a 2-part
hull that the resolver then prunes, the annotated output still carries the
serialized unpruned 2-part hull under `concave_hull_polygon`, while the
hull-only output carries the pruned single part, and the two differ. -/
theorem c10_second_pass_hull_only :
    (∀ (wl : List String) (kernel : Geometry → ℚ → KernelResult)
       (ser : Geometry → String) (fs hs anns : List Feature),
      firstPass wl kernel ser fs = some (hs, anns) →
      run wl kernel ser fs
        = some { hullOnly := (secondPass hs).features, annotated := anns,
                 unresolvedList := (secondPass hs).unresolvedList,
                 tinyRemoved := (secondPass hs).tinyRemoved }) ∧
    run [] k10 serZero [f10]
      = some { hullOnly := [⟨Geometry.poly ⟨1, 9⟩, f10.properties, f10.fid⟩],
               annotated := [⟨f10.geometry,
                 setProp f10.properties "concave_hull_polygon"
                   (GeoJSONValue.str (serZero g10)), f10.fid⟩],
               unresolvedList := [], tinyRemoved := 1 } ∧
    getProp (setProp f10.properties "concave_hull_polygon"
        (GeoJSONValue.str (serZero g10))) "concave_hull_polygon"
      = some (GeoJSONValue.str (serZero g10)) ∧
    Geometry.poly ⟨1, 9⟩ ≠ g10 := by
  refine ⟨fun wl kernel ser fs hs anns hfp =>
    run_eq wl kernel ser fs hs anns hfp, ?_, by decide, by decide⟩
  have hk10 : ∀ t, k10 f10.geometry t = KernelResult.success g10 :=
    fun _ => rfl
  have hga : isAccepted g10 = false := rfl
  have hhull : (runSearch (k10 f10.geometry)).hull = some g10 :=
    (searchFrom_constSuccess (k10 f10.geometry) CONCAVE_HULL_LENGTH_INCREMENT
      g10 hk10 hga 99 0 CONCAVE_HULL_LENGTH_THRESHOLD none 0 none).1
  have hpf : processFeature [] k10 serZero f10
      = some (⟨g10, f10.properties, f10.fid⟩,
              ⟨f10.geometry,
               setProp f10.properties "concave_hull_polygon"
                 (GeoJSONValue.str (serZero g10)), f10.fid⟩) :=
    processFeature_hull [] k10 serZero f10 g10 (by decide) (by decide) hhull
  have hfp : firstPass [] k10 serZero [f10]
      = some ([⟨g10, f10.properties, f10.fid⟩],
              [⟨f10.geometry,
                setProp f10.properties "concave_hull_polygon"
                  (GeoJSONValue.str (serZero g10)), f10.fid⟩]) := by
    simp only [firstPass, hpf]
  have hcl : classify ⟨g10, f10.properties, f10.fid⟩
      = { feature := ⟨Geometry.poly ⟨1, 9⟩, f10.properties, f10.fid⟩,
          unresolved := none, tinyRemoved := true } := by
    show classify ⟨Geometry.multiPoly [⟨0, 8⟩, ⟨1, 9⟩],
      f10.properties, f10.fid⟩ = _
    rw [classify_two, tinyCheck_keep2 _ _ _ (by norm_num) tiny_pos]
  have hsp : secondPass [⟨g10, f10.properties, f10.fid⟩]
      = { features := [⟨Geometry.poly ⟨1, 9⟩, f10.properties, f10.fid⟩],
          unresolvedList := [], tinyRemoved := 1 } := by
    rw [secondPass_cons, hcl]
    rfl
  rw [run_eq [] k10 serZero [f10] _ _ hfp, hsp]

/-- Claim C10 witness: the frame part applied to a concrete run. -/
theorem c10_witness :
    run [] kOne serZero [c5Feature]
      = some { hullOnly := (secondPass [c5Feature]).features,
               annotated := [c5Feature],
               unresolvedList := (secondPass [c5Feature]).unresolvedList,
               tinyRemoved := (secondPass [c5Feature]).tinyRemoved } :=
  c10_second_pass_hull_only.1 [] kOne serZero [c5Feature] [c5Feature]
    [c5Feature] (by decide)
